import Mathlib

/-!
Shallow embedding of the content-factory directive preprocessor
(`src/utils/preprocessor.ts`, class `Preprocessor`) and the engine path
helper (`Engine.resolveFilePath`).  Strings are modelled as `List Char`
(`Cs`); the Node file system is a partial map `Fs`; the mutable
`visitedFiles : Set<string>` is a `List String` in JavaScript insertion
order, threaded through explicit state `St` together with a ghost log of
every file-read attempt.  Recursion between `process` and the include
loop is bounded by explicit fuel; the JavaScript code has no fuel, so
the `outOfFuel` branch is unreachable for fuel larger than the inclusion
depth.
-/

set_option maxRecDepth 100000

/-- Strings are modelled as lists of characters. -/
abbrev Cs := List Char

/-- The apostrophe character, written by code point. -/
def quoteS : Char := Char.ofNat 39

/-- The backquote character, written by code point. -/
def backquote : Char := Char.ofNat 96

/-- ASCII whitespace, the fragment of the JavaScript regex class
matched by the documents this development evaluates. -/
def isSpace (c : Char) : Bool :=
  c = ' ' || c = '\t' || c = '\n' || c = '\r' || c = '\x0b' || c = '\x0c'

/-- JavaScript `String.prototype.trim` restricted to ASCII whitespace. -/
def trimCs (l : Cs) : Cs :=
  ((l.dropWhile isSpace).reverse.dropWhile isSpace).reverse

/-- JavaScript `String.prototype.split` with a one-character separator:
`"".split(sep)` is `[""]`, separators at the ends produce empty pieces. -/
def splitOnChar (sep : Char) : Cs → List Cs
  | [] => [[]]
  | c :: rest =>
    let r := splitOnChar sep rest
    if c = sep then [] :: r
    else
      match r with
      | h :: t => (c :: h) :: t
      | [] => [[c]]

/-- Match a literal prefix; returns the rest of the input on success. -/
def dropLit : Cs → Cs → Option Cs
  | [], l => some l
  | _ :: _, [] => none
  | p :: ps, c :: cs => if c = p then dropLit ps cs else none

/-- Leftmost occurrence of `pat` in `text` (JavaScript `indexOf`). -/
def findSub (pat : Cs) : Cs → Option Nat
  | [] => if pat.isEmpty then some 0 else none
  | text@(_ :: rest) =>
    if pat.isPrefixOf text then some 0
    else (findSub pat rest).map (· + 1)

/-- JavaScript `indexOf(pat, from)`: leftmost occurrence at index ≥ `start`. -/
def findSubFrom (text pat : Cs) (start : Nat) : Option Nat :=
  (findSub pat (text.drop start)).map (· + start)

/-- JavaScript `substring(a, b)`: clamps and swaps its endpoints. -/
def jsSubstring (l : Cs) (a b : Nat) : Cs :=
  if a ≤ b then (l.take b).drop a else (l.take a).drop b

/- ## Path resolution (Node `path`, POSIX flavour) -/

/-- POSIX `path.isAbsolute`. -/
def isAbsolute (p : String) : Bool := p.data.head? = some '/'

/-- Stack pass of POSIX normalization over already-split components:
empty and `.` components vanish, `..` pops (a no-op at the root). -/
def normComps : List Cs → List Cs → List Cs
  | acc, [] => acc.reverse
  | acc, c :: cs =>
    if c = [] || c = ['.'] then normComps acc cs
    else if c = ['.', '.'] then normComps acc.tail cs
    else normComps (c :: acc) cs

/-- Normalize an absolute POSIX path string. -/
def normalizeAbs (s : Cs) : Cs :=
  '/' :: List.intercalate ['/'] (normComps [] (splitOnChar '/' s))

/-- Node `path.resolve(base, p)`; the process working directory, needed
only when both arguments are relative, is modelled as `/`. -/
def pathResolve (base p : String) : String :=
  if isAbsolute p then ⟨normalizeAbs p.data⟩
  else if isAbsolute base then ⟨normalizeAbs (base.data ++ '/' :: p.data)⟩
  else ⟨normalizeAbs ('/' :: base.data ++ '/' :: p.data)⟩

/-- Node `path.resolve(p)` with one argument; the working directory is
modelled as `/`, and every caller in the repository passes an absolute
path, for which the working directory is irrelevant. -/
def pathResolveOne (p : String) : String :=
  if isAbsolute p then ⟨normalizeAbs p.data⟩ else ⟨normalizeAbs ('/' :: p.data)⟩

/-- Node POSIX `path.dirname`. -/
def dirname (s : String) : String :=
  match s.data with
  | [] => "."
  | c0 :: rest =>
    let hasRoot := c0 = '/'
    let rrev := (rest.reverse.dropWhile (· = '/')).dropWhile (· ≠ '/')
    match rrev with
    | [] => if hasRoot then "/" else "."
    | _ :: _ =>
      if hasRoot ∧ rrev.length = 1 then "//"
      else ⟨(c0 :: rest).take rrev.length⟩

/-- `Preprocessor.resolvePath` (preprocessor.ts:248): absolute paths are
used verbatim, `@/` paths resolve against the project root, anything
else against the directory of the including file. -/
def resolvePath (filePath rootPath currentFilePath : String) : String :=
  if isAbsolute filePath then filePath
  else if ['@', '/'].isPrefixOf filePath.data then
    pathResolve rootPath ⟨filePath.data.drop 2⟩
  else
    pathResolve (dirname currentFilePath) filePath

/-- `Engine.resolveFilePath` (engine source): used for top-level
`readFile` requests; bare relative paths resolve against the project
root, not against any including file. -/
def resolveFilePath (root filePath : String) : String :=
  if isAbsolute filePath then filePath
  else if ['@', '/'].isPrefixOf filePath.data then
    pathResolve root ⟨filePath.data.drop 2⟩
  else
    pathResolve root filePath

/- ## Pipeline specification parsing (`Preprocessor.parsePipelineString`) -/

/-- One parsed pipeline stage. -/
structure Stage where
  name : String
  params : List String
deriving DecidableEq, Repr

/-- The `pushCurrent` closure of `parsePipelineString`
(preprocessor.ts:204): trims the accumulated segment, splits a trailing
parenthesized parameter list on every comma, trims each parameter and
drops empty ones. -/
def pushCurrent (current : Cs) (acc : List Stage) : List Stage :=
  let trimmed := trimCs current
  if trimmed.isEmpty then acc
  else
    match findSub ['('] trimmed with
    | some parenStart =>
      if trimmed.getLast? = some ')' then
        let name := trimCs (trimmed.take parenStart)
        let paramsStr := (trimmed.drop (parenStart + 1)).dropLast
        let params :=
          ((splitOnChar ',' paramsStr).map trimCs).filter (fun p => !p.isEmpty)
        acc ++ [⟨⟨name⟩, params.map (fun p => (⟨p⟩ : String))⟩]
      else acc ++ [⟨⟨trimmed⟩, []⟩]
    | none => acc ++ [⟨⟨trimmed⟩, []⟩]

/-- The character loop of `parsePipelineString` (preprocessor.ts:226):
parentheses adjust the depth counter and a comma at depth zero closes
the current segment. -/
def parseLoop : Cs → Cs → Int → List Stage → List Stage
  | [], current, _, acc => pushCurrent current acc
  | c :: rest, current, depth, acc =>
    let depth1 := if c = '(' then depth + 1 else if c = ')' then depth - 1 else depth
    if c = ',' ∧ depth1 = 0 then parseLoop rest [] depth1 (pushCurrent current acc)
    else parseLoop rest (current ++ [c]) depth1 acc

/-- `Preprocessor.parsePipelineString` (preprocessor.ts:197). -/
def parsePipelineString (input : String) : List Stage :=
  parseLoop input.data [] 0 []

example : parsePipelineString "a(1,2), b" = [⟨"a", ["1", "2"]⟩, ⟨"b", []⟩] := by decide
example : dirname "/root/sub/a.md" = "/root/sub" := by decide
example : pathResolve "/root/sub" "./b.md" = "/root/sub/b.md" := by decide
example : pathResolveOne "/root/main.md" = "/root/main.md" := by decide

/- ## Visibility filter (`Preprocessor.processVisibility`) -/

/-- The opening-marker literal `<content-factory-filter`. -/
def filterOpenLit : Cs := "<content-factory-filter".data

/-- The closing-tag literal `</content-factory-filter>`. -/
def filterCloseLit : Cs := "</content-factory-filter>".data

/-- The scan loop of `processVisibility` (preprocessor.ts:287): find the
closing tag matching the first opening marker by alternately locating
the next opening and closing markers and tracking depth.  The loop
advances the cursor by a tag length each round, so any fuel above the
text length is enough. -/
def scanClose (text : Cs) : Nat → Nat → Int → Option Nat
  | 0, _, _ => none
  | fuel + 1, cursor, depth =>
    match findSubFrom text filterCloseLit cursor with
    | none => none
    | some nextClose =>
      match findSubFrom text filterOpenLit cursor with
      | some nextOpen =>
        if nextOpen < nextClose then
          scanClose text fuel (nextOpen + filterOpenLit.length) (depth + 1)
        else if depth - 1 = 0 then some nextClose
        else scanClose text fuel (nextClose + filterCloseLit.length) (depth - 1)
      | none =>
        if depth - 1 = 0 then some nextClose
        else scanClose text fuel (nextClose + filterCloseLit.length) (depth - 1)

/-- One attempt, at the head of `l`, to match the attribute regex
`name\s*=\s*["']([^"']+)["']`; returns the captured value. -/
def tryAttr (name : Cs) (l : Cs) : Option Cs := do
  let r1 ← dropLit name l
  let r2 := r1.dropWhile isSpace
  let r3 ← dropLit ['='] r2
  let r4 := r3.dropWhile isSpace
  let r5 ← match r4 with
    | c :: cs => if c = '"' ∨ c = quoteS then some cs else none
    | [] => none
  let cap := r5.takeWhile (fun c => !(c = '"' || c = quoteS))
  if cap.isEmpty then none
  else
    let r6 := r5.drop cap.length
    match r6 with
    | c :: _ => if c = '"' ∨ c = quoteS then some cap else none
    | [] => none

/-- Leftmost match of the attribute regex inside a tag string
(JavaScript `String.prototype.match` with a non-global regex). -/
def findAttr (name : Cs) : Cs → Option Cs
  | [] => none
  | l@(_ :: rest) =>
    match tryAttr name l with
    | some v => some v
    | none => findAttr name rest

/-- The retention rule of `processVisibility` (preprocessor.ts:330):
`isIncluded && !isExcluded` where `isIncluded` is `includes.length === 0
|| includes.includes(tool)` and `isExcluded` is `excludes.includes(tool)`. -/
def shouldKeep (includes excludes : List Cs) (tool : Cs) : Bool :=
  (includes.isEmpty || includes.contains tool) && !(excludes.contains tool)

/-- Parse a comma-separated attribute value into trimmed identifiers
(preprocessor.ts:322). -/
def parseToolList (v : Cs) : List Cs :=
  (splitOnChar ',' v).map trimCs

/-- `Preprocessor.processVisibility` (preprocessor.ts:273), with fuel;
each recursive call is on a strictly shorter text, so fuel above the
text length makes the fuel branch unreachable. -/
def procVis : Nat → Cs → Cs → Cs
  | 0, text, _ => text
  | fuel + 1, text, tool =>
    match findSub filterOpenLit text with
    | none => text
    | some start =>
      match scanClose text (text.length + 1) start 0 with
      | none => text
      | some closingIndex =>
        match findSubFrom text ['>'] start with
        | none => text
        | some openTagEnd =>
          let openingTagStr := jsSubstring text start (openTagEnd + 1)
          let includes :=
            match findAttr "include".data openingTagStr with
            | some v => parseToolList v
            | none => []
          let excludes :=
            match findAttr "exclude".data openingTagStr with
            | some v => parseToolList v
            | none => []
          let innerContentRaw := jsSubstring text (openTagEnd + 1) closingIndex
          let replacement :=
            if shouldKeep includes excludes tool then procVis fuel innerContentRaw tool
            else []
          let remainingText := text.drop (closingIndex + filterCloseLit.length)
          text.take start ++ replacement ++ procVis fuel remainingText tool

/-- String-level wrapper for `processVisibility`. -/
def processVisibility (text tool : String) : String :=
  ⟨procVis (text.data.length + 1) text.data tool.data⟩

example : processVisibility
    "Before<content-factory-filter include=\"roo\">Inner</content-factory-filter>After"
    "claude" = "BeforeAfter" := by decide
example : processVisibility
    "A<content-factory-filter include=\"A\">X<content-factory-filter include=\"A\">Y</content-factory-filter>Z</content-factory-filter>B"
    "A" = "AXYZB" := by decide

/- ## Include-directive matching (the regex at preprocessor.ts:77) -/

/-- One parsed include directive: the exact matched span, the `path`
capture and the optional `pipelines` capture. -/
structure IncMatch where
  full : Cs
  path : Cs
  pipes : Option Cs
deriving DecidableEq, Repr

/-- The include-tag name literal. -/
def incLit : Cs := "<content-factory-include-file".data

/-- Match `\s+` followed by nothing else: at least one whitespace
character, consumed greedily. -/
def dropSpaces1 : Cs → Option Cs
  | c :: rest => if isSpace c then some (rest.dropWhile isSpace) else none
  | [] => none

/-- Match `["']`. -/
def dropQuote : Cs → Option Cs
  | c :: rest => if c = '"' ∨ c = quoteS then some rest else none
  | [] => none

/-- Match `([^"']+)` greedily; returns the capture and the rest. -/
def spanNonQuote1 (l : Cs) : Option (Cs × Cs) :=
  let cap := l.takeWhile (fun c => !(c = '"' || c = quoteS))
  if cap.isEmpty then none else some (cap, l.drop cap.length)

/-- Match the tail `\s*(?:\/>|><\/content-factory-include-file>)`. -/
def tryEnding (l : Cs) : Option Cs :=
  let r := l.dropWhile isSpace
  match dropLit "/>".data r with
  | some r2 => some r2
  | none => dropLit "></content-factory-include-file>".data r

/-- Match the optional group
`\s+pipelines\s*=\s*["']([^"']+)["']`; returns the capture and the rest. -/
def tryPipes (l : Cs) : Option (Cs × Cs) := do
  let r1 ← dropSpaces1 l
  let r2 ← dropLit "pipelines".data r1
  let r3 := r2.dropWhile isSpace
  let r4 ← dropLit ['='] r3
  let r5 := r4.dropWhile isSpace
  let r6 ← dropQuote r5
  let (cap, r7) ← spanNonQuote1 r6
  let r8 ← dropQuote r7
  pure (cap, r8)

/-- Attempt the include regex at the head of `l`.  All subpatterns are
deterministic (greedy classes with disjoint follow sets), so the only
backtracking point is the optional `pipelines` group: if the ending
fails after the group matched, the regex retries without the group.
Returns the match length and the two captures. -/
def tryInclude (l : Cs) : Option (Nat × Cs × Option Cs) := do
  let r1 ← dropLit incLit l
  let r2 ← dropSpaces1 r1
  let r3 ← dropLit "path".data r2
  let r4 := r3.dropWhile isSpace
  let r5 ← dropLit ['='] r4
  let r6 := r5.dropWhile isSpace
  let r7 ← dropQuote r6
  let (cap, r8) ← spanNonQuote1 r7
  let r9 ← dropQuote r8
  match tryPipes r9 with
  | some (pcap, r10) =>
    match tryEnding r10 with
    | some r11 => pure (l.length - r11.length, cap, some pcap)
    | none =>
      match tryEnding r9 with
      | some r11 => pure (l.length - r11.length, cap, none)
      | none => none
  | none =>
    match tryEnding r9 with
    | some r11 => pure (l.length - r11.length, cap, none)
    | none => none

/-- The `while ((match = includeRegex.exec(text)) !== null)` loop
(preprocessor.ts:88): leftmost matches, non-overlapping, scanning left
to right; `skip` counts positions still covered by the last match. -/
def scanIncludes : Cs → Nat → List IncMatch
  | [], _ => []
  | _ :: rest, skip + 1 => scanIncludes rest skip
  | l@(_ :: rest), 0 =>
    match tryInclude l with
    | some (len, cap, pcap) => ⟨l.take len, cap, pcap⟩ :: scanIncludes rest (len - 1)
    | none => scanIncludes rest 0

/-- All include-directive matches of a text, in order. -/
def findIncludeMatches (text : Cs) : List IncMatch := scanIncludes text 0

example : findIncludeMatches "X<content-factory-include-file path=\"./a.md\"/>Y".data
    = [⟨"<content-factory-include-file path=\"./a.md\"/>".data, "./a.md".data, none⟩] := by
  decide

/- ## JavaScript `String.prototype.replace` with a string pattern -/

/-- ECMAScript `GetSubstitution` for a string search (no capture
groups): `$$`, `$&`, backquote and apostrophe forms are special, any
other `$` sequence stays literal. -/
def substRepl (matched pre suf : Cs) : Cs → Cs
  | [] => []
  | [c] => [c]
  | c :: d :: rest2 =>
    if c = '$' then
      if d = '$' then '$' :: substRepl matched pre suf rest2
      else if d = '&' then matched ++ substRepl matched pre suf rest2
      else if d = backquote then pre ++ substRepl matched pre suf rest2
      else if d = quoteS then suf ++ substRepl matched pre suf rest2
      else c :: d :: substRepl matched pre suf rest2
    else c :: substRepl matched pre suf (d :: rest2)

/-- JavaScript `text.replace(pat, repl)` with string arguments: replaces
the first occurrence only, applying `GetSubstitution` to `repl`. -/
def jsReplace (text pat repl : Cs) : Cs :=
  match findSub pat text with
  | none => text
  | some i =>
    text.take i
      ++ substRepl pat (text.take i) (text.drop (i + pat.length)) repl
      ++ text.drop (i + pat.length)

example : jsReplace "XmY".data "m".data "A$&B".data = "XAmBY".data := by decide

/- ## Pipeline execution (`Preprocessor.executePipelines`) -/

/-- The argument record a pipeline function receives
(the `engine` field, opaque user plumbing, is not modelled). -/
structure PipeArgs where
  content : String
  pipelineName : String
  toolName : String
  strategyName : String
  params : List String

/-- A user pipeline function: it may throw (`error`), return nothing
(`ok none`), or return an object whose `content` field is a string
(`ok (some s)`). -/
def PipelineFn : Type := PipeArgs → Except Unit (Option String)

/-- `Preprocessor.executePipelines` (preprocessor.ts:150).  Each stage
is looked up by name (unknown stages are skipped), invoked with the
function parameter `content` — the original pre-chain content, not the
running `currentContent` — and only a string-valued `content` result
updates the running content; a throw leaves it unchanged. -/
def executePipelines (content : String) (pipelinesStr : String)
    (availablePipelines : String → Option PipelineFn)
    (toolName strategyName : String) : String :=
  (parsePipelineString pipelinesStr).foldl
    (fun currentContent stage =>
      match availablePipelines stage.name with
      | none => currentContent
      | some fn =>
        match fn ⟨content, stage.name, toolName, strategyName, stage.params⟩ with
        | .error _ => currentContent
        | .ok none => currentContent
        | .ok (some s) => s)
    content

/- ## The directive processor (`Preprocessor.process`) -/

/-- The file system visible to `fs.readFile`: `none` is a read failure. -/
structure Fs where
  read : String → Option String

/-- The options record of `Preprocessor.process` (modulo the unmodelled
`engine` field). -/
structure Opts where
  content : String
  toolName : String
  strategyName : String
  pipelines : Option (String → Option PipelineFn)
  rootPath : String
  currentFilePath : String

/-- The options record passed to `processIncludes`. -/
structure IncOpts where
  toolName : String
  strategyName : String
  pipelines : Option (String → Option PipelineFn)
  rootPath : String
  currentFilePath : String

/-- Explicit state: `visited` is the mutable `visitedFiles` set in
JavaScript insertion order; `reads` is ghost instrumentation recording
every `fs.readFile` attempt, in order. -/
structure St where
  visited : List String
  reads : List String
deriving DecidableEq, Repr

/-- JavaScript `Set.prototype.has`. -/
def visitedHas (v : List String) (x : String) : Bool := v.contains x

/-- JavaScript `Set.prototype.add`: appends unless already present. -/
def visitedAdd (v : List String) (x : String) : List String :=
  if v.contains x then v else v ++ [x]

/-- JavaScript `Set.prototype.delete`. -/
def visitedDelete (v : List String) (x : String) : List String :=
  v.filter (fun y => y ≠ x)

/-- Failures of `process`: the circular-dependency error carries the
normalized path and the in-flight chain named by the thrown message;
`outOfFuel` is the artefact of bounding the unbounded JavaScript
recursion and is unreachable for fuel above the inclusion depth. -/
inductive PErr where
  | circular (path : String) (chain : List String)
  | outOfFuel
deriving DecidableEq, Repr

/-- Result of a `process` call: the outcome plus the final state of the
shared visitation set and the ghost read log. -/
abbrev PRes := Except PErr String × St

/-- The missing-file marker `[MISSING FILE: <path literal>]`
(preprocessor.ts:112). -/
def markerFor (p : Cs) : Cs := "[MISSING FILE: ".data ++ p ++ [']']

/-- The body of the `for (const { fullMatch, filePath, pipelinesStr } of
matches)` loop (preprocessor.ts:97), parameterized by the recursive
`process` call.  A failed read substitutes the missing-file marker and
continues; a successful read recursively processes the included file,
optionally runs its pipelines, and substitutes the result.  An error
from the recursive call propagates, abandoning the rest of the loop. -/
def includeStep (rec : Fs → Opts → St → PRes) (fs : Fs) (o : IncOpts)
    (acc : Except PErr Cs × St) (m : IncMatch) : Except PErr Cs × St :=
  match acc with
  | (.error e, st) => (.error e, st)
  | (.ok text, st) =>
    let resolvedPath := resolvePath ⟨m.path⟩ o.rootPath o.currentFilePath
    let st1 : St := ⟨st.visited, st.reads ++ [resolvedPath]⟩
    match fs.read resolvedPath with
    | none => (.ok (jsReplace text m.full (markerFor m.path)), st1)
    | some includedContent =>
      match rec fs ⟨includedContent, o.toolName, o.strategyName, o.pipelines,
          o.rootPath, resolvedPath⟩ st1 with
      | (.error e, st2) => (.error e, st2)
      | (.ok processedContent, st2) =>
        let finalContent :=
          match m.pipes, o.pipelines with
          | some ps, some avail =>
            executePipelines processedContent ⟨ps⟩ avail o.toolName o.strategyName
          | _, _ => processedContent
        (.ok (jsReplace text m.full finalContent.data), st2)

/-- `Preprocessor.processIncludes` (preprocessor.ts:63), parameterized
by the recursive `process` call: find all matches first, then process
them in order over the evolving text. -/
def processIncludes (rec : Fs → Opts → St → PRes) (fs : Fs) (o : IncOpts)
    (text : Cs) (st : St) : Except PErr Cs × St :=
  (findIncludeMatches text).foldl (includeStep rec fs o) (.ok text, st)

/-- The body of `Preprocessor.process` (preprocessor.ts:21),
parameterized by the recursive call used for included files: normalize
the current path, fail if it is already in flight, add it, filter
visibility, resolve includes, then remove it.  Note the removal happens
only on the success path, as in the source, which has no try/finally. -/
def processGo (rec : Fs → Opts → St → PRes) (fs : Fs) (o : Opts) (st : St) : PRes :=
  let normalizedCurrentPath := pathResolveOne o.currentFilePath
  if visitedHas st.visited normalizedCurrentPath then
    (.error (.circular normalizedCurrentPath st.visited), st)
  else
    let st1 : St := ⟨visitedAdd st.visited normalizedCurrentPath, st.reads⟩
    let text1 := (processVisibility o.content o.toolName).data
    match processIncludes rec fs ⟨o.toolName, o.strategyName, o.pipelines,
        o.rootPath, normalizedCurrentPath⟩ text1 st1 with
    | (.error e, st2) => (.error e, st2)
    | (.ok text2, st2) =>
      (.ok ⟨text2⟩, ⟨visitedDelete st2.visited normalizedCurrentPath, st2.reads⟩)

/-- `Preprocessor.process` with fuel bounding the inclusion depth,
written with a bare recursor so that applications at literal fuel
reduce definitionally. -/
def process (fuel : Nat) : Fs → Opts → St → PRes :=
  Nat.rec (motive := fun _ => Fs → Opts → St → PRes)
    (fun _ _ st => (.error .outOfFuel, st))
    (fun _ ih => processGo ih)
    fuel

theorem process_zero (fs : Fs) (o : Opts) (st : St) :
    process 0 fs o st = (.error .outOfFuel, st) := rfl

theorem process_succ (n : Nat) (fs : Fs) (o : Opts) (st : St) :
    process (n + 1) fs o st = processGo (process n) fs o st := rfl

/- ## Invariants of the visitation set -/

theorem visitedAdd_delete (v : List String) (x : String)
    (h : visitedHas v x = false) : visitedDelete (visitedAdd v x) x = v := by
  have hx : x ∉ v := by simpa [visitedHas] using h
  unfold visitedAdd visitedDelete
  rw [if_neg (by simpa using hx)]
  rw [List.filter_append]
  have h1 : v.filter (fun y => y ≠ x) = v :=
    List.filter_eq_self.mpr (fun a ha => by
      simp only [decide_eq_true_eq]
      exact fun hax => hx (hax ▸ ha))
  have h2 : [x].filter (fun y => y ≠ x) = [] := by simp
  rw [h1, h2, List.append_nil]

/-- A foldl over the include loop started from an error is inert. -/
theorem includeLoop_error (rec : Fs → Opts → St → PRes) (fs : Fs) (o : IncOpts)
    (ms : List IncMatch) (e : PErr) (st : St) :
    ms.foldl (includeStep rec fs o) (.error e, st) = (.error e, st) := by
  induction ms with
  | nil => rfl
  | cons m ms ih => simpa [List.foldl_cons, includeStep] using ih

/-- If every recursive call restores the visitation set on success, so
does the include loop: on a successful pass the final set equals the
set it started from (only the ghost read log grows). -/
theorem includeLoop_visited (rec : Fs → Opts → St → PRes)
    (H : ∀ fs o st r st2, rec fs o st = (.ok r, st2) → st2.visited = st.visited)
    (fs : Fs) (o : IncOpts) :
    ∀ (ms : List IncMatch) (text : Cs) (st : St) (t2 : Cs) (st2 : St),
      ms.foldl (includeStep rec fs o) (.ok text, st) = (.ok t2, st2) →
      st2.visited = st.visited := by
  intro ms
  induction ms with
  | nil =>
    intro text st t2 st2 h
    simp only [List.foldl_nil, Prod.mk.injEq] at h
    rw [← h.2]
  | cons m ms ih =>
    intro text st t2 st2 h
    rw [List.foldl_cons] at h
    simp only [includeStep] at h
    cases hr : fs.read (resolvePath ⟨m.path⟩ o.rootPath o.currentFilePath) with
    | none =>
      rw [hr] at h
      simp only [] at h
      have h4 := ih _ _ _ _ h
      simpa using h4
    | some includedContent =>
      rw [hr] at h
      simp only [] at h
      cases hrec : rec fs ⟨includedContent, o.toolName, o.strategyName, o.pipelines,
          o.rootPath, resolvePath ⟨m.path⟩ o.rootPath o.currentFilePath⟩
          ⟨st.visited, st.reads ++ [resolvePath ⟨m.path⟩ o.rootPath o.currentFilePath]⟩ with
      | mk r stR =>
        rw [hrec] at h
        cases r with
        | error e =>
          simp only [] at h
          rw [includeLoop_error] at h
          exact absurd h (by simp)
        | ok pc =>
          simp only [] at h
          have h2 := ih _ _ _ _ h
          have h3 := H _ _ _ _ _ hrec
          rw [h2, h3]

/- ## Claim fixtures -/

/-- C1 fixture: a document including `./c.md` twice in sibling positions. -/
def mainC1 : String :=
  "A<content-factory-include-file path=\"./c.md\"/>B<content-factory-include-file path=\"./c.md\"/>D"

/-- C1 fixture file system. -/
def fsC1 : Fs := ⟨fun p => if p = "/root/c.md" then some "C" else none⟩

/-- C1 fixture options. -/
def optsC1 : Opts := ⟨mainC1, "claude", "default", none, "/root", "/root/main.md"⟩

/-- C2 counterexample fixture: a file that includes itself. -/
def mainC2 : String := "<content-factory-include-file path=\"./main.md\"/>"

/-- C2 counterexample file system. -/
def fsC2 : Fs := ⟨fun p => if p = "/root/main.md" then some mainC2 else none⟩

/-- C2 counterexample options. -/
def optsC2 : Opts := ⟨mainC2, "claude", "default", none, "/root", "/root/main.md"⟩

/-- C2 witness fixture: one successful include. -/
def mainC2w : String := "P<content-factory-include-file path=\"./w.md\"/>Q"

/-- C2 witness file system. -/
def fsC2w : Fs := ⟨fun p => if p = "/root/w.md" then some "W" else none⟩

/-- C2 witness options. -/
def optsC2w : Opts := ⟨mainC2w, "claude", "default", none, "/root", "/root/main.md"⟩

/-- C3 fixture: an include directive inside a region excluded for tool `T`. -/
def mainC3 : String :=
  "A<content-factory-filter exclude=\"T\">B<content-factory-include-file path=\"./x.md\"/>C</content-factory-filter>D"

/-- C3 options for tool `T` (the region is dropped). -/
def optsC3 : Opts := ⟨mainC3, "T", "default", none, "/root", "/root/main.md"⟩

/-- C3 options for tool `U` (the region is kept). -/
def optsC3U : Opts := ⟨mainC3, "U", "default", none, "/root", "/root/main.md"⟩

/-- C3 file system for the kept-region run. -/
def fsC3 : Fs := ⟨fun p => if p = "/root/x.md" then some "X" else none⟩

/-- C3 second-level fixture: the dropped region with the include sits in
an included file, one recursion level down. -/
def mainC3b : String := "M<content-factory-include-file path=\"./inner.md\"/>N"

/-- C3 second-level file system: `y.md` exists but must never be read. -/
def fsC3b : Fs :=
  ⟨fun p => if p = "/root/inner.md" then some mainC3
   else if p = "/root/y.md" then some "Y" else none⟩

/-- C3 second-level options (processing for tool `T`). -/
def optsC3b : Opts := ⟨mainC3b, "T", "default", none, "/root", "/root/main.md"⟩

/-- C5 fixture pipeline: appends a suffix to the content it is shown. -/
def fAppend (s : String) : PipelineFn := fun a => .ok (some (a.content ++ s))

/-- C5 fixture registry with two content-producing stages. -/
def availC5 : String → Option PipelineFn :=
  fun n => if n = "a" then some (fAppend "F")
    else if n = "b" then some (fAppend "G") else none

/-- C6 fixture: a missing include followed by a present sibling include. -/
def mainC6 : String :=
  "X<content-factory-include-file path=\"./nope.md\"/>Y<content-factory-include-file path=\"./ok.md\"/>Z"

/-- C6 file system: `nope.md` is absent, `ok.md` present. -/
def fsC6 : Fs := ⟨fun p => if p = "/root/ok.md" then some "OK" else none⟩

/-- C6 options. -/
def optsC6 : Opts := ⟨mainC6, "claude", "default", none, "/root", "/root/main.md"⟩

/-- C9 fixture directive span. -/
def dirC9 : String := "<content-factory-include-file path=\"./d.md\"/>"

/-- C9 fixture document. -/
def mainC9 : String := "X<content-factory-include-file path=\"./d.md\"/>Y"

/-- C9 file system: the included file's content contains the
replacement pattern `$&`. -/
def fsC9 : Fs := ⟨fun p => if p = "/root/d.md" then some "A$&B" else none⟩

/-- C9 options. -/
def optsC9 : Opts := ⟨mainC9, "claude", "default", none, "/root", "/root/main.md"⟩

/-- Modelled from the spec: replacing the directive's span with the
resolved content verbatim (literal splice, no substitution-pattern
interpretation), stated for comparison with the `String.replace`-based
substitution the code performs. -/
def replaceVerbatim (text pat repl : Cs) : Cs :=
  match findSub pat text with
  | none => text
  | some i => text.take i ++ repl ++ text.drop (i + pat.length)

/-- C10 fixture: both attributes present but `pipelines` written first. -/
def mainC10 : String :=
  "X<content-factory-include-file pipelines=\"a\" path=\"./x.md\"/>Y"

/-- C10 options. -/
def optsC10 : Opts := ⟨mainC10, "claude", "default", none, "/root", "/root/main.md"⟩

/-- C10 contrast fixture: the same attributes in the recognized order. -/
def goodC10 : String :=
  "<content-factory-include-file path=\"./x.md\" pipelines=\"a\"/>"

/-- On every successful call, `process` leaves the visitation set as it
found it: the current path is added before the content is scanned and
deleted on the success path, and recursive calls do the same. -/
theorem process_visited_restored (fuel : Nat) :
    ∀ (fs : Fs) (o : Opts) (st : St) (r : String) (st2 : St),
      process fuel fs o st = (.ok r, st2) → st2.visited = st.visited := by
  induction fuel with
  | zero =>
    intro fs o st r st2 h
    rw [process_zero] at h
    exact absurd h (by simp)
  | succ n ih =>
    intro fs o st r st2 h
    rw [process_succ] at h
    simp only [processGo] at h
    by_cases hv : visitedHas st.visited (pathResolveOne o.currentFilePath) = true
    · rw [if_pos hv] at h
      exact absurd h (by simp)
    · rw [if_neg hv] at h
      cases hloop : processIncludes (process n) fs ⟨o.toolName, o.strategyName,
          o.pipelines, o.rootPath, pathResolveOne o.currentFilePath⟩
          (processVisibility o.content o.toolName).data
          ⟨visitedAdd st.visited (pathResolveOne o.currentFilePath), st.reads⟩ with
      | mk res stL =>
        rw [hloop] at h
        cases res with
        | error e =>
          simp only [] at h
          exact absurd h (by simp)
        | ok t2 =>
          simp only [Prod.mk.injEq] at h
          obtain ⟨h1, h2⟩ := h
          rw [← h2]
          have h3 := includeLoop_visited (process n) (fun a b c d e hh => ih a b c d e hh)
            fs _ _ _ _ _ _ hloop
          show visitedDelete stL.visited (pathResolveOne o.currentFilePath) = st.visited
          rw [h3]
          exact visitedAdd_delete _ _ (by simpa using hv)

/- ## Claim theorems -/

/-- C1: a `process` call whose normalized current path is already in the
visitation set at entry fails with the circular-dependency error naming
that path, and a document that includes the same file twice in sibling,
non-nested positions succeeds, splicing that file's resolved content
twice. -/
theorem c1_cycle_detection_and_sibling_reinclusion :
    (∀ (fuel : Nat) (fs : Fs) (o : Opts) (st : St),
        visitedHas st.visited (pathResolveOne o.currentFilePath) = true →
        process (fuel + 1) fs o st =
          (.error (.circular (pathResolveOne o.currentFilePath) st.visited), st))
    ∧ process 5 fsC1 optsC1 ⟨[], []⟩ =
        (.ok "ACBCD", ⟨[], ["/root/c.md", "/root/c.md"]⟩) := by
  constructor
  · intro fuel fs o st h
    rw [process_succ]
    simp only [processGo]
    rw [if_pos h]
  · rfl

/-- C1 witness: with `/root/main.md` already in flight, the call fails
with the circular-dependency error naming it. -/
theorem c1_witness :
    process 3 fsC1 optsC1 ⟨["/root/main.md"], []⟩ =
      (.error (.circular "/root/main.md" ["/root/main.md"]),
       ⟨["/root/main.md"], []⟩) :=
  c1_cycle_detection_and_sibling_reinclusion.1 2 fsC1 optsC1
    ⟨["/root/main.md"], []⟩ (by decide)

/-- C2 (amended): the current path is added to the visitation set before
the content is processed and removed after successful processing, so
after every call that returns successfully the set equals its state at
entry; on a circular-dependency failure the error propagates without the
removal (the source has no try/finally), so the set is not restored. -/
theorem c2_visitation_set_scoped :
    ∀ (fuel : Nat) (fs : Fs) (o : Opts) (st : St) (r : String) (st2 : St),
      process fuel fs o st = (.ok r, st2) → st2.visited = st.visited :=
  fun fuel => process_visited_restored fuel

/-- C2 witness: a successful run entered with `/q` in the set leaves
exactly `/q` in the set. -/
theorem c2_witness :
    (⟨["/q"], ["/root/w.md"]⟩ : St).visited = (⟨["/q"], []⟩ : St).visited :=
  c2_visitation_set_scoped 5 fsC2w optsC2w ⟨["/q"], []⟩ "PWQ"
    ⟨["/q"], ["/root/w.md"]⟩ rfl

/-- C2 counterexample: a self-including file makes `process` throw the
circular-dependency error, and the visitation set then still holds the
in-flight path, not its (empty) state at entry — the claimed
removal-on-failure does not happen. -/
theorem c2_counterexample_no_restore_on_failure :
    process 5 fsC2 optsC2 ⟨[], []⟩ =
      (.error (.circular "/root/main.md" ["/root/main.md"]),
       ⟨["/root/main.md"], ["/root/main.md"]⟩)
    ∧ (["/root/main.md"] : List String) ≠ [] :=
  ⟨rfl, by decide⟩

/-- C3: the visibility filter runs over the whole content before include
resolution, so an include directive inside a region dropped for tool `T`
causes no file read — for every file system the run reads nothing and
returns the filtered text; the same document processed for tool `U`
(region kept) does read the file; and one recursion level down, a
dropped region's include is likewise never read even though the file
exists. -/
theorem c3_filter_precedes_includes :
    (∀ fs : Fs, process 5 fs optsC3 ⟨[], []⟩ = (.ok "AD", ⟨[], []⟩))
    ∧ process 5 fsC3 optsC3U ⟨[], []⟩ = (.ok "ABXCD", ⟨[], ["/root/x.md"]⟩)
    ∧ process 5 fsC3b optsC3b ⟨[], []⟩ = (.ok "MADN", ⟨[], ["/root/inner.md"]⟩) :=
  ⟨fun _ => rfl, rfl, rfl⟩

/-- C4: a filter region is kept iff (the parsed include set is empty or
the tool is in it) and the tool is not in the exclude set; when the tool
is in both sets the region is dropped, exclude taking precedence. -/
theorem c4_retention_rule :
    (∀ (includes excludes : List Cs) (tool : Cs),
        shouldKeep includes excludes tool = true ↔
          ((includes = [] ∨ tool ∈ includes) ∧ tool ∉ excludes))
    ∧ processVisibility
        "<content-factory-filter include=\"T\" exclude=\"T\">S</content-factory-filter>"
        "T" = "" := by
  constructor
  · intro includes excludes tool
    simp [shouldKeep]
  · rfl

/-- C4 witness: instantiating the retention rule at a kept region. -/
theorem c4_witness :
    ((["T".data] : List Cs) = [] ∨ "T".data ∈ (["T".data] : List Cs)) ∧
      "T".data ∉ (["U".data] : List Cs) :=
  (c4_retention_rule.1 ["T".data] ["U".data] "T".data).mp (by decide)

/-- C5: every pipeline stage is invoked with the original pre-chain
content, and the executor returns the last content-producing stage's
result; for two content-producing stages the result is the second
stage's output on the original content (concretely, `"X"` through two
appending stages yields `"XG"`, not `"XFG"`). -/
theorem c5_pipeline_stages_see_original_content :
    (∀ (avail : String → Option PipelineFn) (f g : PipelineFn)
        (content tool strat x y : String),
        avail "a" = some f → avail "b" = some g →
        f ⟨content, "a", tool, strat, []⟩ = .ok (some x) →
        g ⟨content, "b", tool, strat, []⟩ = .ok (some y) →
        executePipelines content "a,b" avail tool strat = y)
    ∧ executePipelines "X" "a,b" availC5 "t" "s" = "XG" := by
  constructor
  · intro avail f g content tool strat x y ha hb hf hg
    have hp : parsePipelineString "a,b" = [⟨"a", []⟩, ⟨"b", []⟩] := rfl
    unfold executePipelines
    rw [hp]
    simp only [List.foldl_cons, List.foldl_nil, ha, hb, hf, hg]
  · rfl

/-- C5 witness: the chain applied to `"W"` returns the second stage's
output on the original content. -/
theorem c5_witness : executePipelines "W" "a,b" availC5 "tt" "ss" = "WG" :=
  c5_pipeline_stages_see_original_content.1 availC5 (fAppend "F") (fAppend "G")
    "W" "tt" "ss" "WF" "WG" rfl rfl rfl rfl

/-- C6: when the read of an included file fails, the loop body
substitutes the literal `[MISSING FILE: <path literal>]` marker for the
directive and returns success, so the fold continues with the remaining
sibling directives; concretely a document with a missing include
followed by a present one resolves both without an exception. -/
theorem c6_missing_file_marker :
    (∀ (rec : Fs → Opts → St → PRes) (fs : Fs) (o : IncOpts) (text : Cs)
        (st : St) (m : IncMatch),
        fs.read (resolvePath ⟨m.path⟩ o.rootPath o.currentFilePath) = none →
        includeStep rec fs o (.ok text, st) m =
          (.ok (jsReplace text m.full (markerFor m.path)),
           ⟨st.visited,
            st.reads ++ [resolvePath ⟨m.path⟩ o.rootPath o.currentFilePath]⟩))
    ∧ process 5 fsC6 optsC6 ⟨[], []⟩ =
        (.ok "X[MISSING FILE: ./nope.md]YOKZ",
         ⟨[], ["/root/nope.md", "/root/ok.md"]⟩) := by
  constructor
  · intro rec fs o text st m h
    simp only [includeStep, h]
  · rfl

/-- C6 witness: the loop body at a concrete missing-file directive. -/
theorem c6_witness :
    includeStep (process 0) fsC6 ⟨"t", "s", none, "/root", "/root/main.md"⟩
        (.ok "W".data, ⟨[], []⟩) ⟨"<x/>".data, "./nope.md".data, none⟩ =
      (.ok (jsReplace "W".data "<x/>".data (markerFor "./nope.md".data)),
       ⟨[], ["/root/nope.md"]⟩) :=
  c6_missing_file_marker.1 (process 0) fsC6 ⟨"t", "s", none, "/root", "/root/main.md"⟩
    "W".data ⟨[], []⟩ ⟨"<x/>".data, "./nope.md".data, none⟩ (by decide)

/-- C7: inside an include directive a bare relative path resolves
against the including file's directory while the top-level read-file
helper resolves the same bare path against the project root; `@/` paths
resolve against the root in both contexts; absolute paths are used
verbatim in both; and the asymmetry is observable concretely. -/
theorem c7_path_resolution_asymmetry :
    (∀ (root cur rel : String),
        isAbsolute rel = false → (['@', '/'].isPrefixOf rel.data) = false →
        resolvePath rel root cur = pathResolve (dirname cur) rel ∧
        resolveFilePath root rel = pathResolve root rel)
    ∧ (∀ (root cur p : String),
        isAbsolute p = false → (['@', '/'].isPrefixOf p.data) = true →
        resolvePath p root cur = pathResolve root ⟨p.data.drop 2⟩ ∧
        resolveFilePath root p = pathResolve root ⟨p.data.drop 2⟩)
    ∧ (∀ (root cur a : String), isAbsolute a = true →
        resolvePath a root cur = a ∧ resolveFilePath root a = a)
    ∧ resolvePath "b.md" "/root" "/root/sub/a.md" = "/root/sub/b.md"
    ∧ resolveFilePath "/root" "b.md" = "/root/b.md"
    ∧ ("/root/sub/b.md" : String) ≠ "/root/b.md" := by
  refine ⟨?_, ?_, ?_, rfl, rfl, by decide⟩
  · intro root cur rel h1 h2
    constructor
    · simp [resolvePath, h1, h2]
    · simp [resolveFilePath, h1, h2]
  · intro root cur p h1 h2
    constructor
    · simp [resolvePath, h1, h2]
    · simp [resolveFilePath, h1, h2]
  · intro root cur a h
    constructor
    · simp [resolvePath, h]
    · simp [resolveFilePath, h]

/-- C7 witness: the two contexts at a concrete bare relative path. -/
theorem c7_witness :
    resolvePath "b.md" "/root" "/root/sub/a.md" =
      pathResolve (dirname "/root/sub/a.md") "b.md" ∧
    resolveFilePath "/root" "b.md" = pathResolve "/root" "b.md" :=
  c7_path_resolution_asymmetry.1 "/root" "/root/sub/a.md" "b.md"
    (by decide) (by decide)

/-- C8: pipeline parsing splits only on top-level commas, tracking
parenthesis depth, trims parameters and drops empty ones: the claimed
example parses exactly as stated, a comma inside a parameter list does
not start a new stage, and nested parentheses keep a stage together
(while the parameter list itself is split on every comma). -/
theorem c8_pipeline_parsing_top_level_commas :
    parsePipelineString "a(1,2), b" = [⟨"a", ["1", "2"]⟩, ⟨"b", []⟩]
    ∧ parsePipelineString "a(1,2)" = [⟨"a", ["1", "2"]⟩]
    ∧ parsePipelineString "a( 1 ,, 2 )" = [⟨"a", ["1", "2"]⟩]
    ∧ parsePipelineString "a(f(1,2),3), b" = [⟨"a", ["f(1", "2)", "3"]⟩, ⟨"b", []⟩] :=
  ⟨rfl, rfl, rfl, rfl⟩

/-- C9: directive substitution goes through `String.replace`, so an
included file whose content holds `$&` has the directive's own text
spliced back in, and the output differs from the verbatim splice of the
resolved content over the directive span. -/
theorem c9_replace_dollar_patterns :
    process 5 fsC9 optsC9 ⟨[], []⟩ =
      (.ok "XA<content-factory-include-file path=\"./d.md\"/>BY",
       ⟨[], ["/root/d.md"]⟩)
    ∧ replaceVerbatim mainC9.data dirC9.data "A$&B".data = "XA$&BY".data
    ∧ ("XA<content-factory-include-file path=\"./d.md\"/>BY" : String) ≠ "XA$&BY" :=
  ⟨rfl, rfl, by decide⟩

/-- C10: a tag carrying `pipelines` before `path` is not recognized by
the include regex — the directive stays verbatim in the output and no
file is read for any file system — while the same attributes in the
documented order are matched with both captures. -/
theorem c10_pipelines_before_path_not_matched :
    (∀ fs : Fs, process 5 fs optsC10 ⟨[], []⟩ = (.ok mainC10, ⟨[], []⟩))
    ∧ findIncludeMatches mainC10.data = []
    ∧ findIncludeMatches goodC10.data =
        [⟨goodC10.data, "./x.md".data, some "a".data⟩] :=
  ⟨fun _ => rfl, rfl, rfl⟩
